import Mathlib

/-!
Verification of the Safe-Policy-Optimization benchmark driver
(`safepo/single_agent/benchmark.py`) and configuration builder
(`safepo/utils/config.py`).

The Python code is shallowly embedded: command construction and the
worker dispatch of the driver become pure Lean functions on lists of
tokens, and `multi_agent_args` becomes a function from its parsed CLI
arguments and the contents of the YAML files it reads to an
`Except`-valued result (exceptions raised by the Python code are
modelled as `Except.error`).  Python's `str` on integers and
`str.zfill` are modelled character by character so that the derived
log-directory strings can be reasoned about exactly.
-/

/-! ### Python decimal rendering: `str(n)` and `str.zfill` -/

/-- Fuel-indexed decimal rendering of a natural number, most significant
digit first; the fuel only has to exceed the argument.  Mirrors Python's
`str` on a non-negative `int`. -/
def natReprAux : Nat → Nat → List Char
  | 0, _ => []
  | fuel + 1, n =>
    if n < 10 then [Nat.digitChar n]
    else natReprAux fuel (n / 10) ++ [Nat.digitChar (n % 10)]

/-- Decimal rendering of a natural number (`str(n)` in Python for `n >= 0`). -/
def natRepr (n : Nat) : List Char := natReprAux (n + 1) n

/-- `str(i)` for a Python `int`: a minus sign followed by the digits when
negative, just the digits otherwise. -/
def pyIntStrL (i : Int) : List Char :=
  if i < 0 then '-' :: natRepr i.natAbs else natRepr i.natAbs

/-- `str(i)` as a Lean `String`. -/
def pyIntStr (i : Int) : String := String.mk (pyIntStrL i)

/-- Python's `str.zfill(w)`: left-pad with `'0'` up to width `w`, keeping a
leading sign character in front of the padding. -/
def zfill (w : Nat) (l : List Char) : List Char :=
  match l with
  | [] => List.replicate w '0'
  | c :: rest =>
    if c = '-' ∨ c = '+' then c :: (List.replicate (w - 1 - rest.length) '0' ++ rest)
    else List.replicate (w - (rest.length + 1)) '0' ++ (c :: rest)

/-- `s.zfill(3)` as a `String` operation. -/
def zfill3Str (s : String) : String := String.mk (zfill 3 s.data)

/-- One step of decimal parsing: shift the accumulator and add a digit. -/
def pstep (acc : Nat) (c : Char) : Nat := 10 * acc + (c.toNat - 48)

/-- Parse a digit string back to a natural number (leading zeros allowed). -/
def parseNat (l : List Char) : Nat := l.foldl pstep 0

/-- Parse an optionally `'-'`-signed digit string back to an integer. -/
def decodeInt (l : List Char) : Int :=
  match l with
  | [] => 0
  | c :: r => if c = '-' then -(parseNat r : Int) else (parseNat (c :: r) : Int)

theorem digitChar_toNat {d : Nat} (h : d < 10) : (Nat.digitChar d).toNat = 48 + d := by
  interval_cases d <;> rfl

theorem digitChar_ne_dash {d : Nat} (h : d < 10) : Nat.digitChar d ≠ '-' := by
  interval_cases d <;> decide

theorem digitChar_ne_plus {d : Nat} (h : d < 10) : Nat.digitChar d ≠ '+' := by
  interval_cases d <;> decide

theorem natReprAux_ne_nil {fuel n : Nat} (h : n < fuel) : natReprAux fuel n ≠ [] := by
  cases fuel with
  | zero => omega
  | succ f =>
    unfold natReprAux
    split
    · simp
    · simp

theorem natRepr_ne_nil (n : Nat) : natRepr n ≠ [] := natReprAux_ne_nil (by omega)

theorem mem_natReprAux {fuel n : Nat} (h : n < fuel) :
    ∀ c ∈ natReprAux fuel n, ∃ d, d < 10 ∧ c = Nat.digitChar d := by
  induction fuel generalizing n with
  | zero => omega
  | succ f ih =>
    intro c hc
    unfold natReprAux at hc
    split at hc
    · simp only [List.mem_singleton] at hc
      exact ⟨n, by omega, hc⟩
    · rename_i hn
      rcases List.mem_append.1 hc with hc | hc
      · have hlt : n / 10 < f := by
          have hself : n / 10 < n := Nat.div_lt_self (by omega) (by omega)
          omega
        exact ih hlt c hc
      · simp only [List.mem_singleton] at hc
        exact ⟨n % 10, by omega, hc⟩

theorem mem_natRepr {n : Nat} : ∀ c ∈ natRepr n, ∃ d, d < 10 ∧ c = Nat.digitChar d :=
  mem_natReprAux (by omega)

theorem dash_not_mem_natRepr {n : Nat} : '-' ∉ natRepr n := by
  intro h
  obtain ⟨d, hd, hc⟩ := mem_natRepr _ h
  exact digitChar_ne_dash hd hc.symm

theorem foldl_pstep_natReprAux {fuel : Nat} :
    ∀ {n : Nat}, n < fuel → ∀ acc : Nat,
      List.foldl pstep acc (natReprAux fuel n) = acc * 10 ^ (natReprAux fuel n).length + n := by
  induction fuel with
  | zero => omega
  | succ f ih =>
    intro n h acc
    unfold natReprAux
    split
    · rename_i hn
      simp only [List.foldl_cons, List.foldl_nil, List.length_singleton]
      show 10 * acc + ((Nat.digitChar n).toNat - 48) = acc * 10 ^ 1 + n
      rw [digitChar_toNat hn]
      ring_nf
      omega
    · rename_i hn
      have hlt : n / 10 < f := by
        have hself : n / 10 < n := Nat.div_lt_self (by omega) (by omega)
        omega
      rw [List.foldl_append, List.length_append]
      simp only [List.foldl_cons, List.foldl_nil, List.length_singleton]
      rw [ih hlt acc]
      show 10 * (acc * 10 ^ (natReprAux f (n / 10)).length + n / 10)
            + ((Nat.digitChar (n % 10)).toNat - 48)
          = acc * 10 ^ ((natReprAux f (n / 10)).length + 1) + n
      rw [digitChar_toNat (by omega), pow_succ]
      have hdm : 10 * (n / 10) + n % 10 = n := Nat.div_add_mod n 10
      ring_nf
      omega

theorem parseNat_natRepr (n : Nat) : parseNat (natRepr n) = n := by
  have h : List.foldl pstep 0 (natReprAux (n + 1) n)
      = 0 * 10 ^ (natReprAux (n + 1) n).length + n :=
    foldl_pstep_natReprAux (by omega) 0
  simpa [parseNat, natRepr] using h

theorem foldl_pstep_zeros (k : Nat) : List.foldl pstep 0 (List.replicate k '0') = 0 := by
  induction k with
  | zero => rfl
  | succ m ih => simpa [List.replicate_succ, pstep] using ih

theorem parseNat_zeros_append (k : Nat) (l : List Char) :
    parseNat (List.replicate k '0' ++ l) = parseNat l := by
  unfold parseNat
  rw [List.foldl_append, foldl_pstep_zeros]

theorem head_ne_dash_of_all {l : List Char} (hne : l ≠ []) (hall : '-' ∉ l) :
    ∃ c r, l = c :: r ∧ c ≠ '-' ∧ '-' ∉ r := by
  cases l with
  | nil => exact absurd rfl hne
  | cons c r =>
    refine ⟨c, r, rfl, ?_, ?_⟩
    · intro hc
      exact hall (by simp [hc])
    · intro hr
      exact hall (by simp [hr])

theorem decodeInt_of_head_ne_dash {l : List Char} {c : Char} {r : List Char}
    (hl : l = c :: r) (hc : c ≠ '-') : decodeInt l = (parseNat l : Int) := by
  subst hl
  simp [decodeInt, hc]

theorem natRepr_head_digit (n : Nat) :
    ∃ c r, natRepr n = c :: r ∧ c ≠ '-' ∧ c ≠ '+' := by
  obtain ⟨c, r, hcr, hc, hr⟩ :=
    head_ne_dash_of_all (natRepr_ne_nil n) dash_not_mem_natRepr
  have hmem : c ∈ natRepr n := by rw [hcr]; exact List.mem_cons_self c r
  obtain ⟨d, hd, hcd⟩ := mem_natRepr c hmem
  exact ⟨c, r, hcr, hc, by rw [hcd]; exact digitChar_ne_plus hd⟩

theorem zfill_cons (w : Nat) (c : Char) (rest : List Char) :
    zfill w (c :: rest) =
      if c = '-' ∨ c = '+' then c :: (List.replicate (w - 1 - rest.length) '0' ++ rest)
      else List.replicate (w - (rest.length + 1)) '0' ++ (c :: rest) := rfl

theorem decodeInt_dash_cons (r : List Char) : decodeInt ('-' :: r) = -(parseNat r : Int) := by
  simp [decodeInt]

theorem zfill_natRepr_eq (w n : Nat) :
    ∃ c r, natRepr n = c :: r ∧
      zfill w (natRepr n) = List.replicate (w - (r.length + 1)) '0' ++ (c :: r) := by
  obtain ⟨c, r, hcr, hdash, hplus⟩ := natRepr_head_digit n
  refine ⟨c, r, hcr, ?_⟩
  rw [hcr, zfill_cons, if_neg (by simp [hdash, hplus])]

theorem zfill_natRepr_no_dash (w n : Nat) : '-' ∉ zfill w (natRepr n) := by
  obtain ⟨c, r, hcr, hz⟩ := zfill_natRepr_eq w n
  rw [hz]
  intro hmem
  rcases List.mem_append.1 hmem with hmem | hmem
  · have := List.eq_of_mem_replicate hmem
    simp at this
  · rw [← hcr] at hmem
    exact dash_not_mem_natRepr hmem

theorem zfill_natRepr_ne_nil (w n : Nat) : zfill w (natRepr n) ≠ [] := by
  obtain ⟨c, r, hcr, hz⟩ := zfill_natRepr_eq w n
  rw [hz]
  simp

theorem decodeInt_zfill_pyIntStr (i : Int) : decodeInt (zfill 3 (pyIntStrL i)) = i := by
  by_cases hneg : i < 0
  · have hstr : pyIntStrL i = '-' :: natRepr i.natAbs := by
      unfold pyIntStrL
      rw [if_pos hneg]
    rw [hstr, zfill_cons, if_pos (Or.inl rfl), decodeInt_dash_cons,
      parseNat_zeros_append, parseNat_natRepr]
    omega
  · have hstr : pyIntStrL i = natRepr i.natAbs := by
      unfold pyIntStrL
      rw [if_neg hneg]
    rw [hstr]
    obtain ⟨c, r, hcr, hsh⟩ :=
      head_ne_dash_of_all (zfill_natRepr_ne_nil 3 i.natAbs) (zfill_natRepr_no_dash 3 i.natAbs)
    rw [decodeInt_of_head_ne_dash hcr hsh.1]
    obtain ⟨c2, r2, hcr2, hz⟩ := zfill_natRepr_eq 3 i.natAbs
    rw [hz, parseNat_zeros_append, ← hcr2, parseNat_natRepr]
    omega

theorem zfill3_pyIntStr_inj {i j : Int}
    (h : zfill 3 (pyIntStrL i) = zfill 3 (pyIntStrL j)) : i = j := by
  have hd := congrArg decodeInt h
  rw [decodeInt_zfill_pyIntStr, decodeInt_zfill_pyIntStr] at hd
  exact hd

theorem zfill3_pyIntStr_shape (i : Int) :
    ∃ c r, zfill 3 (pyIntStrL i) = c :: r ∧ '-' ∉ r := by
  by_cases hneg : i < 0
  · have hstr : pyIntStrL i = '-' :: natRepr i.natAbs := by
      unfold pyIntStrL
      rw [if_pos hneg]
    rw [hstr, zfill_cons, if_pos (Or.inl rfl)]
    refine ⟨'-', List.replicate (3 - 1 - (natRepr i.natAbs).length) '0'
        ++ natRepr i.natAbs, rfl, ?_⟩
    intro hmem
    rcases List.mem_append.1 hmem with hmem | hmem
    · have := List.eq_of_mem_replicate hmem
      simp at this
    · exact dash_not_mem_natRepr hmem
  · have hstr : pyIntStrL i = natRepr i.natAbs := by
      unfold pyIntStrL
      rw [if_neg hneg]
    rw [hstr]
    obtain ⟨c, r, hcr, hsh⟩ :=
      head_ne_dash_of_all (zfill_natRepr_ne_nil 3 i.natAbs) (zfill_natRepr_no_dash 3 i.natAbs)
    exact ⟨c, r, hcr, hsh.2⟩

theorem no_dash_sandwich :
    ∀ (r₁ : List Char) {r₂ t₁ t₂ : List Char}, '-' ∉ r₁ → '-' ∉ r₂ →
      r₁ ++ '-' :: t₁ = r₂ ++ '-' :: t₂ → r₁ = r₂ ∧ t₁ = t₂ := by
  intro r₁
  induction r₁ with
  | nil =>
    intro r₂ t₁ t₂ _ h₂ he
    cases r₂ with
    | nil => simpa using he
    | cons c r =>
      simp only [List.nil_append, List.cons_append, List.cons.injEq] at he
      exact absurd (by simp [← he.1]) h₂
  | cons c r ih =>
    intro r₂ t₁ t₂ h₁ h₂ he
    cases r₂ with
    | nil =>
      simp only [List.nil_append, List.cons_append, List.cons.injEq] at he
      exact absurd (by simp [he.1]) h₁
    | cons c2 rr =>
      simp only [List.cons_append, List.cons.injEq] at he
      have hr := ih (fun hm => h₁ (List.mem_cons_of_mem c hm))
        (fun hm => h₂ (List.mem_cons_of_mem c2 hm)) he.2
      exact ⟨by rw [he.1, hr.1], hr.2⟩

theorem signed_sandwich {z₁ z₂ t₁ t₂ : List Char}
    (h₁ : ∃ c r, z₁ = c :: r ∧ '-' ∉ r) (h₂ : ∃ c r, z₂ = c :: r ∧ '-' ∉ r)
    (he : z₁ ++ '-' :: t₁ = z₂ ++ '-' :: t₂) : z₁ = z₂ ∧ t₁ = t₂ := by
  obtain ⟨c1, r1, hz1, hnd1⟩ := h₁
  obtain ⟨c2, r2, hz2, hnd2⟩ := h₂
  subst hz1
  subst hz2
  simp only [List.cons_append, List.cons.injEq] at he
  have hr := no_dash_sandwich r1 hnd1 hnd2 he.2
  exact ⟨by rw [he.1, hr.1], hr.2⟩

/-! ### String helpers -/

theorem strApp_data (s t : String) : (s ++ t).data = s.data ++ t.data := rfl

theorem str_data_inj {s t : String} (h : s.data = t.data) : s = t := by
  cases s
  cases t
  exact congrArg String.mk h

/-! ### Benchmark driver (`safepo/single_agent/benchmark.py`) -/

/-- The token list of one generated command, mirroring the list that
`benchmark.py` joins with spaces: `python {algo}.py --env-id {env}
--seed {seed} --write-terminal False --log-dir {log_dir}
--experiment {experiment}`. -/
def mkCommandTokens (algo envId : String) (seed : Int) (logDir expName : String) :
    List String :=
  ["python " ++ algo ++ ".py",
   "--env-id", envId,
   "--seed", pyIntStr seed,
   "--write-terminal", "False",
   "--log-dir", logDir,
   "--experiment", expName]

/-- `" ".join(...)` from the Python source. -/
def joinTokens (tokens : List String) : String := String.intercalate " " tokens

/-- One generated command as the driver actually stores it: a single string. -/
def mkCommand (algo envId : String) (seed : Int) (logDir expName : String) : String :=
  joinTokens (mkCommandTokens algo envId seed logDir expName)

/-- All generated commands, as token lists, in the loop order of the source:
seed-major, then environment, then algorithm.  The seed passed to command
`i` is `startSeed + 1000 * i`. -/
def buildCommandTokens (numSeeds : Nat) (startSeed : Int) (envIds algos : List String)
    (logDir expName : String) : List (List String) :=
  (List.range numSeeds).flatMap fun seed =>
    envIds.flatMap fun envId =>
      algos.map fun algo =>
        mkCommandTokens algo envId (startSeed + 1000 * seed) logDir expName

/-- All generated command strings. -/
def buildCommands (numSeeds : Nat) (startSeed : Int) (envIds algos : List String)
    (logDir expName : String) : List String :=
  (buildCommandTokens numSeeds startSeed envIds algos logDir expName).map joinTokens

/-- `run_experiment`: spawn the subprocess, wait for its return code, and
`assert return_code == 0`.  The subprocess's return code is an input of the
model; a failing assertion is an `Except.error`. -/
def run_experiment (command : String) (returnCode : Int) : Except String Unit :=
  if returnCode = 0 then Except.ok () else Except.error "AssertionError: return_code == 0"

/-- What the driver's main block prints and which commands it hands to the
worker pool. -/
structure DriverOut where
  printed : List String
  executed : List String
  deriving Repr, DecidableEq

/-- The header line printed before the command list. -/
def headerLine : String := "======= commands to run:"

/-- The notice printed when `--workers` is `0`. -/
def skipMsg : String :=
  "not running the experiments because --workers is set to 0; just printing the commands to run"

/-- The `__main__` block of `benchmark.py`: build the command list, print it,
and either submit every command to the pool (`workers > 0`) or print a notice
and execute nothing. -/
def benchmarkMain (numSeeds : Nat) (startSeed : Int) (envIds algos : List String)
    (expName : String) (workers : Int) : DriverOut :=
  let commands := buildCommands numSeeds startSeed envIds algos "../runs" expName
  if workers > 0 then
    { printed := headerLine :: commands, executed := commands }
  else
    { printed := (headerLine :: commands) ++ [skipMsg], executed := [] }

/-- The five flags of the command contract. -/
def benchFlags : List String :=
  ["--env-id", "--seed", "--write-terminal", "--log-dir", "--experiment"]

theorem length_flatMap_const {α β : Type} (l : List α) (f : α → List β) (K : Nat)
    (hf : ∀ a, (f a).length = K) : (l.flatMap f).length = l.length * K := by
  induction l with
  | nil => simp
  | cons a t ih =>
    rw [List.flatMap_cons, List.length_append, hf, ih, List.length_cons]
    ring

theorem buildCommandTokens_length (n : Nat) (s : Int) (envIds algos : List String)
    (logDir expName : String) :
    (buildCommandTokens n s envIds algos logDir expName).length
      = n * envIds.length * algos.length := by
  unfold buildCommandTokens
  rw [length_flatMap_const _ _ (envIds.length * algos.length), List.length_range, mul_assoc]
  intro i
  rw [length_flatMap_const _ _ algos.length]
  intro e
  rw [List.length_map]

theorem mem_buildCommandTokens {n : Nat} {s : Int} {envIds algos : List String}
    {logDir expName : String} {cmd : List String} :
    cmd ∈ buildCommandTokens n s envIds algos logDir expName ↔
      ∃ i, i < n ∧ ∃ envId ∈ envIds, ∃ algo ∈ algos,
        cmd = mkCommandTokens algo envId (s + 1000 * i) logDir expName := by
  simp only [buildCommandTokens, List.mem_flatMap, List.mem_map, List.mem_range]
  constructor
  · rintro ⟨i, hi, envId, henv, algo, halgo, rfl⟩
    exact ⟨i, hi, envId, henv, algo, halgo, rfl⟩
  · rintro ⟨i, hi, envId, henv, algo, halgo, rfl⟩
    exact ⟨i, hi, envId, henv, algo, halgo, rfl⟩

/-! ### Configuration builder (`safepo/utils/config.py`) -/

/-- YAML values as far as the configuration files use them: scalars, null,
and nested mappings (represented as insertion-ordered association lists,
like Python dicts). -/
inductive Yval where
  | ynull : Yval
  | ybool : Bool → Yval
  | yint : Int → Yval
  | ystr : String → Yval
  | ymap : List (String × Yval) → Yval

/-- A YAML/`dict` mapping. -/
abbrev Ymap := List (String × Yval)

/-- `m[k]` lookup (first matching key; keys are unique in Python dicts). -/
def yget (m : Ymap) (k : String) : Option Yval :=
  match m with
  | [] => none
  | (k2, v) :: rest => if k2 = k then some v else yget rest k

/-- `m[k] = v` assignment: overwrite in place, append when absent
(Python dict insertion-order semantics). -/
def yset (m : Ymap) (k : String) (v : Yval) : Ymap :=
  match m with
  | [] => [(k, v)]
  | (k2, v2) :: rest => if k2 = k then (k, v) :: rest else (k2, v2) :: yset rest k v

/-- `m.update(m2)`: set every pair of `m2` into `m`, in order. -/
def yupdate (m m2 : Ymap) : Ymap := m2.foldl (fun acc kv => yset acc kv.1 kv.2) m

theorem yget_yset_self (m : Ymap) (k : String) (v : Yval) :
    yget (yset m k v) k = some v := by
  induction m with
  | nil => simp [yset, yget]
  | cons kv rest ih =>
    obtain ⟨k2, v2⟩ := kv
    by_cases hk : k2 = k
    · simp [yset, yget, hk]
    · simp [yset, yget, hk, ih]

theorem yget_yset_ne (m : Ymap) (k : String) (v : Yval) {k2 : String} (h : k2 ≠ k) :
    yget (yset m k v) k2 = yget m k2 := by
  have hkk2 : ¬(k = k2) := fun he => h he.symm
  induction m with
  | nil => simp [yset, yget, hkk2]
  | cons kv rest ih =>
    obtain ⟨k3, v3⟩ := kv
    by_cases hk : k3 = k
    · have hk3 : ¬(k3 = k2) := by rw [hk]; exact hkk2
      simp [yset, yget, hk, hkk2, hk3]
    · by_cases hk2 : k3 = k2
      · simp [yset, yget, hk, hk2, h]
      · simp [yset, yget, hk, hk2, ih]

/-- The CLI arguments of `multi_agent_args` as the function body reads them.
For the two ShadowHand tasks the Python code re-parses with
`isaacgym.gymutil.parse_arguments` (external code); the fields below are the
values the body goes on to use, including the `randomize` attribute that
only that re-parse provides. -/
structure MAArgs where
  task : String
  seed : Int
  experiment : String
  agent_conf : String
  scenario : String
  use_eval : Bool
  device : String
  device_id : Int
  total_steps : Option Int
  num_envs : Option Int
  randomize : Bool

/-- The derived environment name (`env_name` in the source). -/
def envNameOf (a : MAArgs) : String :=
  if a.task = "MujocoVelocity" then "Safety" ++ a.agent_conf ++ a.scenario ++ "Velocity-v0"
  else a.task

/-- `relpath`: `"-".join(["seed", str(seed).zfill(3)])` joined with the
`time.strftime` timestamp. -/
def seedStamp (seed : Int) (timestamp : String) : String :=
  "seed-" ++ zfill3Str (pyIntStr seed) ++ "-" ++ timestamp

/-- `cfg_train['log_dir']`: `"../runs/" + experiment + '/' + env_name + '/' +
algo + '/' + relpath`. -/
def logDirOf (algo : String) (a : MAArgs) (timestamp : String) : String :=
  "../runs/" ++ a.experiment ++ "/" ++ envNameOf a ++ "/" ++ algo ++ "/"
    ++ seedStamp a.seed timestamp

/-- Loading `marl_cfg/{algo}/config.yaml` and, for `MujocoVelocity`, merging
the `mamujoco` sub-mapping: `cfg_train.update(cfg_train.get("mamujoco"))`.
`dict.update` merges a mapping; on a string it iterates the characters, so
the empty string is an empty iterable of pairs and succeeds without change,
while a non-empty string raises (`ValueError`: each element is a length-1
string, not a key/value pair); `None` (absent key or YAML null), booleans
and numbers are not iterable and raise `TypeError`. -/
def loadCfgTrain (task : String) (cfgTrainYaml : Ymap) : Except String Ymap :=
  if task = "MujocoVelocity" then
    match yget cfgTrainYaml "mamujoco" with
    | some (Yval.ymap m) => Except.ok (yupdate cfgTrainYaml m)
    | some (Yval.ystr s) =>
      if s = "" then Except.ok cfgTrainYaml
      else Except.error "ValueError: dictionary update sequence element is not a pair"
    | _ => Except.error "TypeError: cfg_train.update requires a mapping or iterable"
  else Except.ok cfgTrainYaml

/-- The `cfg_env` part of `multi_agent_args`: for the two ShadowHand tasks,
load the task YAML (`cfgEnvYaml`), set its `name`, and normalise the
`randomize` flag inside its `task` sub-mapping; for `MujocoVelocity`,
`cfg_env` stays the empty dict; any other task name reaches
`warn_task_name()`, which raises. -/
def buildCfgEnv (a : MAArgs) (cfgEnvYaml : Ymap) : Except String Ymap :=
  if a.task = "ShadowHandOver" ∨ a.task = "ShadowHandCatchUnderarm" then
    let e0 := yset cfgEnvYaml "name" (Yval.ystr a.task)
    match yget e0 "task" with
    | some (Yval.ymap tm) =>
      match yget tm "randomize" with
      | none =>
        Except.ok (yset e0 "task" (Yval.ymap (yset tm "randomize" (Yval.ybool a.randomize))))
      | some _ =>
        Except.ok (yset e0 "task" (Yval.ymap (yset tm "randomize" (Yval.ybool false))))
    | some _ => Except.error "TypeError: cfg_env task entry is not a mapping"
    | none => Except.ok (yset e0 "task" (Yval.ymap [("randomize", Yval.ybool false)]))
  else if a.task = "MujocoVelocity" then Except.ok []
  else Except.error "Unrecognized task!"

/-- The CLI-derived overlays written into `cfg_train`, in source order,
ending with the derived `log_dir`. -/
def cfgTrainOf (algo : String) (a : MAArgs) (safetyBound : Yval) (cfg0 : Ymap)
    (timestamp : String) : Ymap :=
  let c1 := yset cfg0 "use_eval" (Yval.ybool a.use_eval)
  let c2 := yset c1 "safety_bound" safetyBound
  let c3 := yset c2 "algorithm_name" (Yval.ystr algo)
  let c4 := yset c3 "device" (Yval.ystr (a.device ++ ":" ++ pyIntStr a.device_id))
  let c5 := yset c4 "env_name" (Yval.ystr (envNameOf a))
  let c6 := match a.total_steps with
    | some t => if t ≠ 0 then yset c5 "num_env_steps" (Yval.yint t) else c5
    | none => c5
  let c7 := match a.num_envs with
    | some k =>
      if k ≠ 0 then
        yset (yset c6 "n_rollout_threads" (Yval.yint k)) "n_eval_rollout_threads" (Yval.yint k)
      else c6
    | none => c6
  yset c7 "log_dir" (Yval.ystr (logDirOf algo a timestamp))

/-- `multi_agent_args(algo)` from `safepo/utils/config.py`.  Inputs are the
parsed CLI arguments `a`, the `--safety-bound` value (a float, carried
opaquely), whether `import isaacgym` succeeds, the parsed contents of the two
YAML files the function may read, and the `time.strftime` timestamp.  The
result is `(cfg_env, cfg_train)`; every exception the Python code raises is
an `Except.error`. -/
def multi_agent_args (algo : String) (a : MAArgs) (safetyBound : Yval)
    (isaacgymAvailable : Bool) (cfgTrainYaml cfgEnvYaml : Ymap) (timestamp : String) :
    Except String (Ymap × Ymap) :=
  if (a.task = "ShadowHandOver" ∨ a.task = "ShadowHandCatchUnderarm")
      ∧ isaacgymAvailable = false then
    Except.error "Please install isaacgym to run ShadowHand tasks!"
  else
    match loadCfgTrain a.task cfgTrainYaml with
    | Except.error e => Except.error e
    | Except.ok cfg0 =>
      match buildCfgEnv a cfgEnvYaml with
      | Except.error e => Except.error e
      | Except.ok cfgEnv =>
        Except.ok (cfgEnv, cfgTrainOf algo a safetyBound cfg0 timestamp)

/-! ### Claims about the benchmark driver -/

/-- C1: for every generated command whose subprocess exits with a non-zero
return code, the worker's `run_experiment` call fails: the assertion on the
return code raises (`Except.error`), the call never produces a success
value, and the driver hands every command to the pool exactly once, with no
retry and no collection of partial results. -/
theorem run_experiment_nonzero_exit_fails (cmd : String) (rc : Int) (h : rc ≠ 0) :
    run_experiment cmd rc = Except.error "AssertionError: return_code == 0" ∧
    (∀ u : Unit, run_experiment cmd rc ≠ Except.ok u) ∧
    (∀ (n : Nat) (s : Int) (envIds algos : List String) (expName : String) (w : Int),
      0 < w →
      (benchmarkMain n s envIds algos expName w).executed
        = buildCommands n s envIds algos "../runs" expName) := by
  refine ⟨?_, ?_, ?_⟩
  · unfold run_experiment
    rw [if_neg h]
  · intro u hc
    unfold run_experiment at hc
    rw [if_neg h] at hc
    exact Except.noConfusion hc
  · intro n s envIds algos expName w hw
    unfold benchmarkMain
    rw [if_pos hw]

theorem run_experiment_nonzero_exit_fails_inst :
    run_experiment "python cpo.py --env-id SafetyAntVelocity-v1 --seed 0" 1
        = Except.error "AssertionError: return_code == 0" ∧
    (benchmarkMain 1 0 ["SafetyAntVelocity-v1"] ["cpo"] "bench" 2).executed
        = buildCommands 1 0 ["SafetyAntVelocity-v1"] ["cpo"] "../runs" "bench" := by
  obtain ⟨h1, _, h3⟩ :=
    run_experiment_nonzero_exit_fails
      "python cpo.py --env-id SafetyAntVelocity-v1 --seed 0" 1 (by decide)
  exact ⟨h1, h3 1 0 ["SafetyAntVelocity-v1"] ["cpo"] "bench" 2 (by decide)⟩

/-- C3: the driver generates exactly `num_seeds * len(env_ids) * len(algos)`
commands, one per element of the Cartesian product of seeds, environment ids
and algorithm ids. -/
theorem buildCommands_length (n : Nat) (s : Int) (envIds algos : List String)
    (logDir expName : String) :
    (buildCommands n s envIds algos logDir expName).length
      = n * envIds.length * algos.length ∧
    ∀ cmd, cmd ∈ buildCommandTokens n s envIds algos logDir expName ↔
      ∃ i, i < n ∧ ∃ envId ∈ envIds, ∃ algo ∈ algos,
        cmd = mkCommandTokens algo envId (s + 1000 * i) logDir expName := by
  constructor
  · unfold buildCommands
    rw [List.length_map, buildCommandTokens_length]
  · intro cmd
    exact mem_buildCommandTokens

/-- C4: for every `start_seed` and every seed index `i < num_seeds`, the
command generated for seed index `i` contains the rendering of the exact
value `start_seed + 1000*i` as the argument following the `--seed` flag. -/
theorem seed_flag_exact_value (n : Nat) (s : Int) (envIds algos : List String)
    (logDir expName : String) (i : Nat) (hi : i < n) (envId : String)
    (henv : envId ∈ envIds) (algo : String) (halgo : algo ∈ algos) :
    mkCommandTokens algo envId (s + 1000 * i) logDir expName
      ∈ buildCommandTokens n s envIds algos logDir expName ∧
    ∃ pre post, mkCommandTokens algo envId (s + 1000 * i) logDir expName
      = pre ++ "--seed" :: pyIntStr (s + 1000 * i) :: post := by
  refine ⟨mem_buildCommandTokens.2 ⟨i, hi, envId, henv, algo, halgo, rfl⟩,
    ⟨["python " ++ algo ++ ".py", "--env-id", envId],
     ["--write-terminal", "False", "--log-dir", logDir, "--experiment", expName], rfl⟩⟩

theorem seed_flag_exact_value_inst :
    mkCommandTokens "cpo" "SafetyAntVelocity-v1" (7 + 1000 * 2) "../runs" "bench"
      ∈ buildCommandTokens 3 7 ["SafetyAntVelocity-v1"] ["cpo"] "../runs" "bench" ∧
    ∃ pre post, mkCommandTokens "cpo" "SafetyAntVelocity-v1" (7 + 1000 * 2) "../runs" "bench"
      = pre ++ "--seed" :: pyIntStr (7 + 1000 * 2) :: post := by
  have h := seed_flag_exact_value 3 7 ["SafetyAntVelocity-v1"] ["cpo"] "../runs" "bench"
    2 (by decide) "SafetyAntVelocity-v1" (by decide) "cpo" (by decide)
  exact h

/-- C5: with the workers flag equal to `0`, the driver executes no
subprocess, still prints every generated command, and the printed command
list agrees with the one for any positive worker count (only the final
notice line is added). -/
theorem workers_zero_prints_only (n : Nat) (s : Int) (envIds algos : List String)
    (expName : String) :
    (benchmarkMain n s envIds algos expName 0).executed = [] ∧
    (∀ c ∈ buildCommands n s envIds algos "../runs" expName,
      c ∈ (benchmarkMain n s envIds algos expName 0).printed) ∧
    (∀ w : Int, 0 < w →
      (benchmarkMain n s envIds algos expName 0).printed
        = (benchmarkMain n s envIds algos expName w).printed ++ [skipMsg]) := by
  refine ⟨?_, ?_, ?_⟩
  · unfold benchmarkMain
    rw [if_neg (by decide)]
  · intro c hc
    unfold benchmarkMain
    rw [if_neg (by decide)]
    simp only [List.mem_append, List.mem_cons]
    exact Or.inl (Or.inr hc)
  · intro w hw
    unfold benchmarkMain
    rw [if_neg (by decide), if_pos hw]

theorem workers_zero_prints_only_inst :
    (benchmarkMain 1 0 ["SafetyAntVelocity-v1"] ["cpo"] "bench" 0).executed = [] ∧
    mkCommand "cpo" "SafetyAntVelocity-v1" 0 "../runs" "bench"
      ∈ (benchmarkMain 1 0 ["SafetyAntVelocity-v1"] ["cpo"] "bench" 0).printed ∧
    (benchmarkMain 1 0 ["SafetyAntVelocity-v1"] ["cpo"] "bench" 0).printed
      = (benchmarkMain 1 0 ["SafetyAntVelocity-v1"] ["cpo"] "bench" 48).printed
        ++ [skipMsg] := by
  obtain ⟨h1, h2, h3⟩ := workers_zero_prints_only 1 0 ["SafetyAntVelocity-v1"] ["cpo"] "bench"
  exact ⟨h1, h2 _ (by decide), h3 48 (by decide)⟩

theorem pythonTok_ne (algo flag : String) (h : flag.data.head? = some '-') :
    ("python " ++ algo ++ ".py") ≠ flag := by
  intro hc
  have hd : ("python " ++ algo ++ ".py").data.head? = some 'p' := rfl
  rw [hc, h] at hd
  exact absurd (Option.some.inj hd) (by decide)

theorem take2_ne_dashdash {l : List Char} {c : Char} {r : List Char}
    (hl : l = c :: r) (hc : c ≠ '-') : l.take 2 ≠ ['-', '-'] := by
  subst hl
  intro h
  rw [List.take_succ_cons] at h
  exact hc (List.head_eq_of_cons_eq h)

theorem pyIntStrL_take2 (v : Int) : (pyIntStrL v).take 2 ≠ ['-', '-'] := by
  unfold pyIntStrL
  obtain ⟨c, r, hcr, hdash, _⟩ := natRepr_head_digit v.natAbs
  split
  · rw [hcr]
    intro h
    rw [List.take_succ_cons, List.take_succ_cons] at h
    have h2 := List.tail_eq_of_cons_eq h
    exact hdash (List.head_eq_of_cons_eq h2)
  · exact take2_ne_dashdash hcr hdash

theorem pyIntStr_ne_flag (v : Int) (flag : String) (h2 : flag.data.take 2 = ['-', '-']) :
    pyIntStr v ≠ flag := by
  intro hc
  have hd : (pyIntStr v).data.take 2 = ['-', '-'] := by rw [hc, h2]
  exact pyIntStrL_take2 v hd

theorem mkCommandTokens_count (algo envId : String) (v : Int) (logDir expName : String)
    (henv : ∀ f2 ∈ benchFlags, envId ≠ f2) (hld : ∀ f2 ∈ benchFlags, logDir ≠ f2)
    (hexp : ∀ f2 ∈ benchFlags, expName ≠ f2) :
    ∀ f ∈ benchFlags, (mkCommandTokens algo envId v logDir expName).count f = 1 := by
  intro f hf
  have hpy : ("python " ++ algo ++ ".py") ≠ f := by
    apply pythonTok_ne
    simp only [benchFlags, List.mem_cons, List.not_mem_nil, or_false] at hf
    rcases hf with rfl | rfl | rfl | rfl | rfl <;> rfl
  have hseed : pyIntStr v ≠ f := by
    apply pyIntStr_ne_flag
    simp only [benchFlags, List.mem_cons, List.not_mem_nil, or_false] at hf
    rcases hf with rfl | rfl | rfl | rfl | rfl <;> rfl
  have he := henv f hf
  have hl := hld f hf
  have hx := hexp f hf
  simp only [benchFlags, List.mem_cons, List.not_mem_nil, or_false] at hf
  rcases hf with rfl | rfl | rfl | rfl | rfl <;>
    simp [mkCommandTokens, List.count_cons, List.count_nil, beq_iff_eq,
      hpy, hseed, he, hl, hx, Ne.symm he, Ne.symm hl, Ne.symm hx]

/-- C8 counterexample: the experiment name is itself CLI input; with
`--experiment "--seed"` the generated command contains the token `--seed`
twice, so the claim as stated (each flag exactly once in every generated
command) fails. -/
theorem commands_flag_contract_cex :
    mkCommandTokens "cpo" "SafetyAntVelocity-v1" 0 "../runs" "--seed"
      ∈ buildCommandTokens 1 0 ["SafetyAntVelocity-v1"] ["cpo"] "../runs" "--seed" ∧
    (mkCommandTokens "cpo" "SafetyAntVelocity-v1" 0 "../runs" "--seed").count "--seed"
      = 2 := by
  constructor
  · exact mem_buildCommandTokens.2 ⟨0, by decide, "SafetyAntVelocity-v1", by decide,
      "cpo", by decide, by decide⟩
  · decide

/-- C8 (amended): provided no environment id, the log directory, and the
experiment name is itself one of the five flag strings, every generated
command invokes `python {algo}.py` and contains each of `--env-id`,
`--seed`, `--write-terminal`, `--log-dir`, `--experiment` exactly once,
each followed by its value (visible in the explicit token list the command
equals). -/
theorem commands_flag_contract (n : Nat) (s : Int) (envIds algos : List String)
    (logDir expName : String)
    (henv : ∀ e ∈ envIds, ∀ f ∈ benchFlags, e ≠ f)
    (hld : ∀ f ∈ benchFlags, logDir ≠ f)
    (hexp : ∀ f ∈ benchFlags, expName ≠ f) :
    ∀ cmd ∈ buildCommandTokens n s envIds algos logDir expName,
      ∃ i envId algo, i < n ∧ envId ∈ envIds ∧ algo ∈ algos ∧
        cmd = mkCommandTokens algo envId (s + 1000 * i) logDir expName ∧
        cmd.head? = some ("python " ++ algo ++ ".py") ∧
        ∀ f ∈ benchFlags, cmd.count f = 1 := by
  intro cmd hc
  obtain ⟨i, hi, envId, he, algo, ha, rfl⟩ := mem_buildCommandTokens.1 hc
  exact ⟨i, envId, algo, hi, he, ha, rfl, rfl,
    mkCommandTokens_count algo envId (s + 1000 * i) logDir expName
      (henv envId he) hld hexp⟩

theorem commands_flag_contract_inst :
    ∃ (i : Nat) (envId algo : String),
      i < 1 ∧ envId ∈ ["SafetyAntVelocity-v1"] ∧ algo ∈ ["cpo"] ∧
      mkCommandTokens "cpo" "SafetyAntVelocity-v1" (0 + 1000 * (0 : Nat)) "../runs" "bench"
        = mkCommandTokens algo envId ((0 : Int) + 1000 * (i : Int)) "../runs" "bench" ∧
      (mkCommandTokens "cpo" "SafetyAntVelocity-v1" (0 + 1000 * (0 : Nat)) "../runs"
        "bench").head? = some ("python " ++ algo ++ ".py") ∧
      ∀ f ∈ benchFlags,
        (mkCommandTokens "cpo" "SafetyAntVelocity-v1" (0 + 1000 * (0 : Nat)) "../runs"
          "bench").count f = 1 :=
  commands_flag_contract 1 0 ["SafetyAntVelocity-v1"] ["cpo"] "../runs" "bench"
    (by decide) (by decide) (by decide)
    (mkCommandTokens "cpo" "SafetyAntVelocity-v1" (0 + 1000 * (0 : Nat)) "../runs" "bench")
    (mem_buildCommandTokens.2 ⟨0, by decide, "SafetyAntVelocity-v1", by decide,
      "cpo", by decide, rfl⟩)

/-! ### Claims about the configuration builder -/

theorem strApp_left_cancel {p x y : String} (h : p ++ x = p ++ y) : x = y := by
  have hd := congrArg String.data h
  rw [strApp_data, strApp_data] at hd
  exact str_data_inj (List.append_cancel_left hd)

/-- A concrete parsed-argument bundle for the `MujocoVelocity` task. -/
def argsMujoco (sd : Int) : MAArgs :=
  { task := "MujocoVelocity", seed := sd, experiment := "benchmark", agent_conf := "2x1",
    scenario := "Swimmer", use_eval := false, device := "cpu", device_id := 0,
    total_steps := none, num_envs := none, randomize := false }

/-- A concrete parsed-argument bundle with an unrecognized task name. -/
def argsUnknown : MAArgs :=
  { task := "HumanoidStandup", seed := 0, experiment := "benchmark", agent_conf := "2x1",
    scenario := "Swimmer", use_eval := false, device := "cpu", device_id := 0,
    total_steps := none, num_envs := none, randomize := false }

/-- A concrete parsed-argument bundle for the `ShadowHandOver` task. -/
def argsShadow : MAArgs :=
  { task := "ShadowHandOver", seed := 1, experiment := "benchmark", agent_conf := "2x1",
    scenario := "Swimmer", use_eval := false, device := "cpu", device_id := 0,
    total_steps := none, num_envs := none, randomize := true }

/-- C2: for every parsed task name other than `ShadowHandOver`,
`ShadowHandCatchUnderarm` and `MujocoVelocity`, `multi_agent_args` raises
(`warn_task_name`) and returns no configuration, whatever the YAML files
contain. -/
theorem multi_agent_args_unknown_task (algo : String) (a : MAArgs) (sb : Yval) (ig : Bool)
    (ct ce : Ymap) (ts : String) (h1 : a.task ≠ "ShadowHandOver")
    (h2 : a.task ≠ "ShadowHandCatchUnderarm") (h3 : a.task ≠ "MujocoVelocity") :
    multi_agent_args algo a sb ig ct ce ts = Except.error "Unrecognized task!" := by
  simp [multi_agent_args, loadCfgTrain, buildCfgEnv, h1, h2, h3]

theorem multi_agent_args_unknown_task_inst :
    multi_agent_args "mappo" argsUnknown Yval.ynull true [] [] "2023-08-14-10-00-00"
      = Except.error "Unrecognized task!" :=
  multi_agent_args_unknown_task "mappo" argsUnknown Yval.ynull true [] []
    "2023-08-14-10-00-00" (by decide) (by decide) (by decide)

theorem multi_agent_args_shadow_ok (algo : String) (a : MAArgs) (sb : Yval)
    (ct ce : Ymap) (ts : String) {env : Ymap}
    (htask : a.task = "ShadowHandOver" ∨ a.task = "ShadowHandCatchUnderarm")
    (henv : buildCfgEnv a ce = Except.ok env) :
    multi_agent_args algo a sb true ct ce ts
      = Except.ok (env, cfgTrainOf algo a sb ct ts) := by
  have htaskne : a.task ≠ "MujocoVelocity" := by
    rcases htask with h | h <;> simp [h]
  unfold multi_agent_args
  rw [if_neg (by simp)]
  unfold loadCfgTrain
  rw [if_neg htaskne, henv]

/-- C7: for the two legacy ShadowHand tasks, `multi_agent_args` loads the
second YAML file and, when its `task` sub-mapping lacks a `randomize` key,
fills the key in (with `args.randomize`) so that it is present in the
returned `cfg_env`. -/
theorem multi_agent_args_fills_randomize (algo : String) (a : MAArgs) (sb : Yval)
    (ct ce : Ymap) (ts : String) (tm : Ymap)
    (htask : a.task = "ShadowHandOver" ∨ a.task = "ShadowHandCatchUnderarm")
    (htm : yget ce "task" = some (Yval.ymap tm))
    (hr : yget tm "randomize" = none) :
    ∃ e t, multi_agent_args algo a sb true ct ce ts = Except.ok (e, t) ∧
      yget e "task" = some (Yval.ymap (yset tm "randomize" (Yval.ybool a.randomize))) ∧
      yget (yset tm "randomize" (Yval.ybool a.randomize)) "randomize"
        = some (Yval.ybool a.randomize) := by
  have htm0 : yget (yset ce "name" (Yval.ystr a.task)) "task" = some (Yval.ymap tm) := by
    rw [yget_yset_ne ce "name" (Yval.ystr a.task) (by decide)]
    exact htm
  have henv : buildCfgEnv a ce = Except.ok
      (yset (yset ce "name" (Yval.ystr a.task)) "task"
        (Yval.ymap (yset tm "randomize" (Yval.ybool a.randomize)))) := by
    unfold buildCfgEnv
    rw [if_pos htask]
    simp only [htm0, hr]
  refine ⟨_, _, multi_agent_args_shadow_ok algo a sb ct ce ts htask henv, ?_, ?_⟩
  · exact yget_yset_self _ _ _
  · exact yget_yset_self _ _ _

theorem multi_agent_args_fills_randomize_inst :
    ∃ e t, multi_agent_args "mappo" argsShadow Yval.ynull true []
        [("task", Yval.ymap [("numEnvs", Yval.yint 8)])] "2023-08-14-10-00-00"
        = Except.ok (e, t) ∧
      yget e "task" = some (Yval.ymap
        (yset [("numEnvs", Yval.yint 8)] "randomize" (Yval.ybool argsShadow.randomize))) ∧
      yget (yset [("numEnvs", Yval.yint 8)] "randomize" (Yval.ybool argsShadow.randomize))
        "randomize" = some (Yval.ybool argsShadow.randomize) :=
  multi_agent_args_fills_randomize "mappo" argsShadow Yval.ynull []
    [("task", Yval.ymap [("numEnvs", Yval.yint 8)])] "2023-08-14-10-00-00"
    [("numEnvs", Yval.yint 8)] (Or.inl rfl) rfl rfl

/-- C9: for the two ShadowHand tasks, a `randomize` key already present in
the loaded `task` sub-mapping is overwritten to `False` in the returned
`cfg_env`, whatever its prior value was. -/
theorem multi_agent_args_overwrites_randomize (algo : String) (a : MAArgs) (sb : Yval)
    (ct ce : Ymap) (ts : String) (tm : Ymap) (v : Yval)
    (htask : a.task = "ShadowHandOver" ∨ a.task = "ShadowHandCatchUnderarm")
    (htm : yget ce "task" = some (Yval.ymap tm))
    (hr : yget tm "randomize" = some v) :
    ∃ e t, multi_agent_args algo a sb true ct ce ts = Except.ok (e, t) ∧
      yget e "task" = some (Yval.ymap (yset tm "randomize" (Yval.ybool false))) ∧
      yget (yset tm "randomize" (Yval.ybool false)) "randomize"
        = some (Yval.ybool false) := by
  have htm0 : yget (yset ce "name" (Yval.ystr a.task)) "task" = some (Yval.ymap tm) := by
    rw [yget_yset_ne ce "name" (Yval.ystr a.task) (by decide)]
    exact htm
  have henv : buildCfgEnv a ce = Except.ok
      (yset (yset ce "name" (Yval.ystr a.task)) "task"
        (Yval.ymap (yset tm "randomize" (Yval.ybool false)))) := by
    unfold buildCfgEnv
    rw [if_pos htask]
    simp only [htm0, hr]
  refine ⟨_, _, multi_agent_args_shadow_ok algo a sb ct ce ts htask henv, ?_, ?_⟩
  · exact yget_yset_self _ _ _
  · exact yget_yset_self _ _ _

theorem multi_agent_args_overwrites_randomize_inst :
    ∃ e t, multi_agent_args "mappo" argsShadow Yval.ynull true []
        [("task", Yval.ymap [("randomize", Yval.ybool true)])] "2023-08-14-10-00-00"
        = Except.ok (e, t) ∧
      yget e "task" = some (Yval.ymap
        (yset [("randomize", Yval.ybool true)] "randomize" (Yval.ybool false))) ∧
      yget (yset [("randomize", Yval.ybool true)] "randomize" (Yval.ybool false))
        "randomize" = some (Yval.ybool false) :=
  multi_agent_args_overwrites_randomize "mappo" argsShadow Yval.ynull []
    [("task", Yval.ymap [("randomize", Yval.ybool true)])] "2023-08-14-10-00-00"
    [("randomize", Yval.ybool true)] (Yval.ybool true) (Or.inl rfl) rfl rfl

theorem zfill3Str_data (i : Int) : (zfill3Str (pyIntStr i)).data = zfill 3 (pyIntStrL i) := rfl

theorem multi_agent_args_ok_log_dir {algo : String} {a : MAArgs} {sb : Yval} {ig : Bool}
    {ct ce : Ymap} {ts : String} {e t : Ymap}
    (h : multi_agent_args algo a sb ig ct ce ts = Except.ok (e, t)) :
    yget t "log_dir" = some (Yval.ystr (logDirOf algo a ts)) := by
  unfold multi_agent_args at h
  split at h
  · exact Except.noConfusion h
  · split at h
    · exact Except.noConfusion h
    · split at h
      · exact Except.noConfusion h
      · simp only [Except.ok.injEq, Prod.mk.injEq] at h
        obtain ⟨h1, h2⟩ := h
        subst h2
        unfold cfgTrainOf
        exact yget_yset_self _ _ _

/-- C6: whenever `multi_agent_args` returns, the returned `cfg_train` holds a
non-empty `log_dir` string, and two returning calls with the same experiment
name, environment name and algorithm but a different seed or timestamp get
distinct `log_dir` strings. -/
theorem multi_agent_args_log_dir_unique (algo : String) (a a2 : MAArgs) (sb sb2 : Yval)
    (ig ig2 : Bool) (ct ct2 ce ce2 : Ymap) (ts ts2 : String) {e t e2 t2 : Ymap}
    (h : multi_agent_args algo a sb ig ct ce ts = Except.ok (e, t))
    (h2 : multi_agent_args algo a2 sb2 ig2 ct2 ce2 ts2 = Except.ok (e2, t2))
    (hexp : a2.experiment = a.experiment) (henv : envNameOf a2 = envNameOf a)
    (hdiff : a2.seed ≠ a.seed ∨ ts2 ≠ ts) :
    yget t "log_dir" = some (Yval.ystr (logDirOf algo a ts)) ∧
    logDirOf algo a ts ≠ "" ∧
    yget t2 "log_dir" = some (Yval.ystr (logDirOf algo a2 ts2)) ∧
    logDirOf algo a2 ts2 ≠ logDirOf algo a ts := by
  refine ⟨multi_agent_args_ok_log_dir h, ?_, multi_agent_args_ok_log_dir h2, ?_⟩
  · intro hcon
    have hh : (logDirOf algo a ts).data.head? = some '.' := rfl
    rw [hcon] at hh
    exact absurd hh (by decide)
  · intro hcon
    unfold logDirOf at hcon
    rw [hexp, henv] at hcon
    have hst : seedStamp a2.seed ts2 = seedStamp a.seed ts := strApp_left_cancel hcon
    unfold seedStamp at hst
    have hd := congrArg String.data hst
    simp only [strApp_data, List.append_assoc] at hd
    have hd2 := List.append_cancel_left hd
    rw [zfill3Str_data, zfill3Str_data,
      List.singleton_append, List.singleton_append] at hd2
    obtain ⟨hz, hts⟩ :=
      signed_sandwich (zfill3_pyIntStr_shape a2.seed) (zfill3_pyIntStr_shape a.seed) hd2
    rcases hdiff with hs | ht
    · exact hs (zfill3_pyIntStr_inj hz)
    · exact ht (str_data_inj hts)

theorem multi_agent_args_log_dir_unique_inst :
    yget (cfgTrainOf "macpo" (argsMujoco 0) Yval.ynull
        (yupdate [("mamujoco", Yval.ymap [])] []) "2023-08-14-10-00-00") "log_dir"
      = some (Yval.ystr (logDirOf "macpo" (argsMujoco 0) "2023-08-14-10-00-00")) ∧
    logDirOf "macpo" (argsMujoco 0) "2023-08-14-10-00-00" ≠ "" ∧
    yget (cfgTrainOf "macpo" (argsMujoco 1) Yval.ynull
        (yupdate [("mamujoco", Yval.ymap [])] []) "2023-08-14-10-00-00") "log_dir"
      = some (Yval.ystr (logDirOf "macpo" (argsMujoco 1) "2023-08-14-10-00-00")) ∧
    logDirOf "macpo" (argsMujoco 1) "2023-08-14-10-00-00"
      ≠ logDirOf "macpo" (argsMujoco 0) "2023-08-14-10-00-00" :=
  multi_agent_args_log_dir_unique "macpo" (argsMujoco 0) (argsMujoco 1) Yval.ynull Yval.ynull
    true true [("mamujoco", Yval.ymap [])] [("mamujoco", Yval.ymap [])] [] []
    "2023-08-14-10-00-00" "2023-08-14-10-00-00" rfl rfl rfl rfl (Or.inl (by decide))
